import Mathlib

/-!
# Verification of the shepherd-launcher core

A shallow embedding of the policy engine, session state machine, store and the
orchestrator's launch path of the shepherd-launcher service, together with
theorems about the behaviour of those components.

Sources embedded here:
* `crates/shepherd-util/src/time.rs` — time primitives,
* `crates/shepherd-config/src/policy.rs` — validated policy model and the
  raw-config limit conversion,
* `crates/shepherd-store/src/sqlite.rs` + `audit.rs` — the store,
* `crates/shepherd-core/src/session.rs` — session plan and active session,
* `crates/shepherd-core/src/engine.rs` — the core engine,
* `crates/shepherdd/src/main.rs` — the `Command::Launch` arm of
  `Service::handle_command` (spawn success / spawn failure).
-/

namespace Shepherd

/-! ## Time primitives (`crates/shepherd-util/src/time.rs`)

`std::time::Duration` is modeled as a natural number of nanoseconds.
`MonotonicInstant` wraps `std::time::Instant`; it is modeled as a natural
number of nanoseconds from an arbitrary origin (instants never precede the
origin, and `Instant::duration_since` saturates at zero).
`chrono::DateTime<Local>` is modeled as an integer count of nanoseconds from
the local epoch of a fixed-offset timezone, so `date_naive`, `weekday` and
time-of-day extraction become integer arithmetic; adding a `Duration` to a
`DateTime` is integer addition. -/

abbrev Duration := Nat

def nsPerSec : Nat := 1000000000

def Duration.fromSecs (s : Nat) : Duration := s * nsPerSec

/-- `Duration::as_secs` truncates to whole seconds. -/
def Duration.asSecs (d : Duration) : Nat := d / nsPerSec

abbrev MonotonicInstant := Nat

/-- `Instant::duration_since` saturates at zero when `earlier` is later. -/
def MonotonicInstant.duration_since (t earlier : MonotonicInstant) : Duration :=
  t - earlier

/-- `MonotonicInstant::saturating_duration_until`: duration until `t`,
or zero if `t` is in the past relative to `from`. -/
def MonotonicInstant.saturating_duration_until (t fr : MonotonicInstant) : Duration :=
  if fr < t then t - fr else 0

abbrev DateTime := Int

def nsPerDay : Int := 86400 * 1000000000

/-- `DateTime::date_naive`, as a calendar-day index (floor division). -/
def dateNaive (t : DateTime) : Int := Int.fdiv t nsPerDay

/-- Whole seconds elapsed since local midnight. -/
def secondsFromMidnight (t : DateTime) : Nat := (Int.emod t nsPerDay).toNat / nsPerSec

/-- `chrono` weekday with Monday = 0 … Sunday = 6; the epoch day was a Thursday. -/
def weekdayNum (t : DateTime) : Nat := ((dateNaive t + 3).emod 7).toNat

/-- `WallClock { hour, minute }` from `time.rs`. -/
structure WallClock where
  hour : Nat
  minute : Nat
deriving DecidableEq

def WallClock.as_seconds_from_midnight (w : WallClock) : Nat :=
  w.hour * 3600 + w.minute * 60

/-- `WallClock::from_naive_time` (seconds are truncated away). -/
def WallClock.from_naive_time (t : DateTime) : WallClock :=
  { hour := secondsFromMidnight t / 3600, minute := (secondsFromMidnight t % 3600) / 60 }

/-- `DaysOfWeek` bit mask, bit 0 = Monday … bit 6 = Sunday. -/
abbrev DaysOfWeek := Nat

def DaysOfWeek.containsDay (mask : DaysOfWeek) (weekday : Nat) : Bool :=
  mask &&& (1 <<< weekday) != 0

/-- `TimeWindow { days, start, end }` (`end` is a reserved word in Lean). -/
structure TimeWindow where
  days : DaysOfWeek
  start : WallClock
  end_ : WallClock
deriving DecidableEq

/-- `TimeWindow::contains`. -/
def TimeWindow.containsTime (w : TimeWindow) (dt : DateTime) : Bool :=
  if ! DaysOfWeek.containsDay w.days (weekdayNum dt) then
    false
  else
    let time := WallClock.from_naive_time dt
    if w.start.as_seconds_from_midnight ≤ w.end_.as_seconds_from_midnight then
      decide (w.start.as_seconds_from_midnight ≤ time.as_seconds_from_midnight ∧
              time.as_seconds_from_midnight < w.end_.as_seconds_from_midnight)
    else
      decide (time.as_seconds_from_midnight ≥ w.start.as_seconds_from_midnight ∨
              time.as_seconds_from_midnight < w.end_.as_seconds_from_midnight)

/-- `TimeWindow::remaining_duration`. -/
def TimeWindow.remaining_duration (w : TimeWindow) (dt : DateTime) : Option Duration :=
  if ! w.containsTime dt then none
  else
    let now_secs := (WallClock.from_naive_time dt).as_seconds_from_midnight
    let end_secs := w.end_.as_seconds_from_midnight
    let remaining_secs :=
      if w.start.as_seconds_from_midnight ≤ w.end_.as_seconds_from_midnight then
        end_secs - now_secs
      else if now_secs ≥ w.start.as_seconds_from_midnight then
        (86400 - now_secs) + end_secs
      else
        end_secs - now_secs
    some (Duration.fromSecs remaining_secs)

/-! ## Policy model (`crates/shepherd-config/src/policy.rs`)

The engine reads an entry's kind only through `EntryKind::tag()`; the spawn
payloads (command, args, env, cwd, snap name, …) are interpreted only by the
host supervisor, so the embedding carries the tag. The per-entry volume
override and the service path configuration are not read by any embedded
operation and are omitted. -/

inductive EntryKindTag where
  | process | snap | vm | media | custom
deriving DecidableEq

inductive WarningSeverity where
  | info | warn | critical
deriving DecidableEq

structure WarningThreshold where
  seconds_before : Nat
  severity : WarningSeverity
  message_template : Option String
deriving DecidableEq

structure LimitsPolicy where
  max_run : Option Duration
  daily_quota : Option Duration
  cooldown : Option Duration
deriving DecidableEq

structure AvailabilityPolicy where
  windows : List TimeWindow
  always : Bool
deriving DecidableEq

/-- `AvailabilityPolicy::is_available`. -/
def AvailabilityPolicy.is_available (a : AvailabilityPolicy) (dt : DateTime) : Bool :=
  if a.always then true
  else if a.windows.isEmpty then true
  else a.windows.any (fun w => w.containsTime dt)

/-- `AvailabilityPolicy::remaining_in_window` (`find_map`). -/
def AvailabilityPolicy.remaining_in_window (a : AvailabilityPolicy) (dt : DateTime) :
    Option Duration :=
  if a.always then none
  else a.windows.findSome? (fun w => w.remaining_duration dt)

structure Entry where
  id : String
  label : String
  icon_ref : Option String
  kind : EntryKindTag
  availability : AvailabilityPolicy
  limits : LimitsPolicy
  warnings : List WarningThreshold
  disabled : Bool
  disabled_reason : Option String
deriving DecidableEq

/-- `Policy`; the engine reads only `entries` (defaults are folded into the
entries by `Policy::from_raw` / `Entry::from_raw` before the engine sees them). -/
structure Policy where
  entries : List Entry
deriving DecidableEq

/-- `Policy::get_entry`. -/
def Policy.get_entry (p : Policy) (id : String) : Option Entry :=
  p.entries.find? (fun e => e.id == id)

/-- `HostCapabilities`; only the spawnable-kind set is read by the engine. -/
structure HostCapabilities where
  spawn_kinds_supported : List EntryKindTag
deriving DecidableEq

def HostCapabilities.supports_kind (c : HostCapabilities) (k : EntryKindTag) : Bool :=
  c.spawn_kinds_supported.contains k

/-! ### Raw-limit conversion (`policy.rs`) -/

/-- `RawLimits` from `schema.rs`: the three optional per-entry second counts. -/
structure RawLimits where
  max_run_seconds : Option Nat
  daily_quota_seconds : Option Nat
  cooldown_seconds : Option Nat
deriving DecidableEq

/-- `seconds_to_duration_or_unlimited`: 0 means unlimited. -/
def seconds_to_duration_or_unlimited (secs : Nat) : Option Duration :=
  if secs = 0 then none else some (Duration.fromSecs secs)

/-- `convert_limits`. -/
def convert_limits (raw : RawLimits) (default_max_run : Option Duration) : LimitsPolicy :=
  { max_run := (raw.max_run_seconds.map seconds_to_duration_or_unlimited).getD default_max_run
    daily_quota := raw.daily_quota_seconds.bind seconds_to_duration_or_unlimited
    cooldown := raw.cooldown_seconds.map Duration.fromSecs }

/-! ## API reason and event types (`crates/shepherd-api/src/types.rs`) -/

inductive ReasonCode where
  | outsideTimeWindow (next_window_start : Option DateTime)
  | quotaExhausted (used quota : Duration)
  | cooldownActive (available_at : DateTime)
  | sessionActive (entry_id : String) (remaining : Option Duration)
  | unsupportedKind (kind : EntryKindTag)
  | disabled (reason : Option String)
deriving DecidableEq

inductive SessionEndReason where
  | expired
  | userStop
  | adminStop
  | processExited (exit_code : Option Int)
  | policyStop
  | serviceShutdown
  | launchFailed (error : String)
deriving DecidableEq

inductive SessionState where
  | launching | running | warned | expiring | ended
deriving DecidableEq

/-- `EntryView` as built by `CoreEngine::evaluate_entry`. -/
structure EntryView where
  entry_id : String
  label : String
  icon_ref : Option String
  kind_tag : EntryKindTag
  enabled : Bool
  reasons : List ReasonCode
  max_run_if_started_now : Option Duration
deriving DecidableEq

/-! ## Store (`crates/shepherd-store/src/sqlite.rs`, `audit.rs`, `traits.rs`)

The SQLite tables are modeled as in-memory association lists keyed by the
same primary keys (`audit_log.id` autoincrement, `usage (entry_id, day)`,
`cooldowns entry_id`). Store operations are synchronous and each mutation is
its own transaction, so each is one pure state transformer; the I/O error
channel of `StoreResult` (never taken by the in-memory state itself) is not
modeled, matching the engine which ignores store errors. Only the audit
variants reachable from the embedded operations are carried; the event
timestamp (read from the ambient clock by `AuditEvent::new`) and the JSON
serialization of the payload are not modeled, no claim mentions them. In
Rust `LaunchDenied` stores the `Debug` rendering of each reason; the
embedding keeps the reasons structurally. -/

inductive AuditEventType where
  | policyLoaded (entry_count : Nat)
  | sessionStarted (session_id entry_id label : String) (deadline : Option DateTime)
  | warningIssued (session_id : String) (threshold_seconds : Nat)
  | sessionEnded (session_id entry_id : String) (reason : SessionEndReason)
      (duration : Duration)
  | launchDenied (entry_id : String) (reasons : List ReasonCode)
  | sessionExtended (session_id : String) (extended_by : Duration)
      (new_deadline : DateTime)
deriving DecidableEq

structure AuditEvent where
  id : Int
  event : AuditEventType
deriving DecidableEq

/-- `AuditEvent::new`: id 0, to be overwritten by the store. -/
def AuditEvent.new (event : AuditEventType) : AuditEvent :=
  { id := 0, event := event }

/-- Lookup in the `usage` table by primary key `(entry_id, day)`. -/
def lookupUsage : List ((String × Int) × Nat) → String × Int → Option Nat
  | [], _ => none
  | (k, v) :: rest, key => if k = key then some v else lookupUsage rest key

/-- The `ON CONFLICT … DO UPDATE SET duration_secs = duration_secs + excluded`
upsert of `add_usage`. -/
def upsertUsage : List ((String × Int) × Nat) → String × Int → Nat →
    List ((String × Int) × Nat)
  | [], key, secs => [(key, secs)]
  | (k, v) :: rest, key, secs =>
    if k = key then (k, v + secs) :: rest
    else (k, v) :: upsertUsage rest key secs

/-- Lookup in the `cooldowns` table by primary key `entry_id`. -/
def lookupCooldown : List (String × DateTime) → String → Option DateTime
  | [], _ => none
  | (k, v) :: rest, key => if k = key then some v else lookupCooldown rest key

/-- The `ON CONFLICT … DO UPDATE SET until = excluded.until` upsert of
`set_cooldown_until`. -/
def upsertCooldown : List (String × DateTime) → String → DateTime →
    List (String × DateTime)
  | [], key, until_ => [(key, until_)]
  | (k, v) :: rest, key, until_ =>
    if k = key then (k, until_) :: rest
    else (k, v) :: upsertCooldown rest key until_

structure StoreState where
  nextAuditId : Int
  auditLog : List AuditEvent
  usage : List ((String × Int) × Nat)
  cooldowns : List (String × DateTime)
deriving DecidableEq

/-- `SqliteStore::append_audit`: inserts the row, records the row's
autoincrement id into the (consumed) local event, and returns `Ok(())`. -/
def StoreState.append_audit (s : StoreState) (event : AuditEvent) : StoreState × Unit :=
  ({ s with
      auditLog := s.auditLog ++ [{ event with id := s.nextAuditId }]
      nextAuditId := s.nextAuditId + 1 }, ())

/-- `SqliteStore::get_usage`: missing row reads as zero seconds. -/
def StoreState.get_usage (s : StoreState) (entry_id : String) (day : Int) : Duration :=
  Duration.fromSecs ((lookupUsage s.usage (entry_id, day)).getD 0)

/-- `SqliteStore::add_usage`: additive upsert of `duration.as_secs()`. -/
def StoreState.add_usage (s : StoreState) (entry_id : String) (day : Int)
    (duration : Duration) : StoreState × Unit :=
  ({ s with usage := upsertUsage s.usage (entry_id, day) (Duration.asSecs duration) }, ())

/-- `SqliteStore::get_cooldown_until`. -/
def StoreState.get_cooldown_until (s : StoreState) (entry_id : String) : Option DateTime :=
  lookupCooldown s.cooldowns entry_id

/-- `SqliteStore::set_cooldown_until`. -/
def StoreState.set_cooldown_until (s : StoreState) (entry_id : String)
    (until_ : DateTime) : StoreState × Unit :=
  ({ s with cooldowns := upsertCooldown s.cooldowns entry_id until_ }, ())

/-! ## Session state machine (`crates/shepherd-core/src/session.rs`)

`SessionId` values are UUIDs; they are modeled as strings. The opaque
`HostSessionHandle` carries pid + pgid on Linux; the engine never looks
inside it. -/

structure HostSessionHandle where
  pid : Int
  pgid : Int
deriving DecidableEq

structure SessionPlan where
  session_id : String
  entry_id : String
  label : String
  max_duration : Option Duration
  warnings : List WarningThreshold
deriving DecidableEq

/-- `SessionPlan::warning_times`: thresholds at or past the maximum duration
are filtered out; each kept threshold is paired with the elapsed time at
which it triggers. -/
def SessionPlan.warning_times (p : SessionPlan) : List (Nat × Duration) :=
  match p.max_duration with
  | none => []
  | some max_duration =>
    (p.warnings.filter
        (fun w => decide (Duration.fromSecs w.seconds_before < max_duration))).map
      (fun w => (w.seconds_before, max_duration - Duration.fromSecs w.seconds_before))

structure ActiveSession where
  plan : SessionPlan
  state : SessionState
  started_at : DateTime
  started_at_mono : MonotonicInstant
  deadline : Option DateTime
  deadline_mono : Option MonotonicInstant
  warnings_issued : List Nat
  host_handle : Option HostSessionHandle
deriving DecidableEq

/-- `ActiveSession::new`. -/
def ActiveSession.new (plan : SessionPlan) (now : DateTime)
    (now_mono : MonotonicInstant) : ActiveSession :=
  let dl : Option DateTime × Option MonotonicInstant :=
    match plan.max_duration with
    | some max_dur => (some (now + (max_dur : Int)), some (now_mono + max_dur))
    | none => (none, none)
  { plan := plan
    state := .launching
    started_at := now
    started_at_mono := now_mono
    deadline := dl.1
    deadline_mono := dl.2
    warnings_issued := []
    host_handle := none }

/-- `ActiveSession::attach_handle`. -/
def ActiveSession.attach_handle (s : ActiveSession) (handle : HostSessionHandle) :
    ActiveSession :=
  { s with host_handle := some handle, state := .running }

/-- `ActiveSession::time_remaining`. -/
def ActiveSession.time_remaining (s : ActiveSession) (now_mono : MonotonicInstant) :
    Option Duration :=
  s.deadline_mono.map
    (fun deadline => MonotonicInstant.saturating_duration_until deadline now_mono)

/-- `ActiveSession::is_expired`. -/
def ActiveSession.is_expired (s : ActiveSession) (now_mono : MonotonicInstant) : Bool :=
  match s.deadline_mono with
  | some deadline => decide (now_mono ≥ deadline)
  | none => false

/-- `ActiveSession::pending_warnings`. -/
def ActiveSession.pending_warnings (s : ActiveSession) (now_mono : MonotonicInstant) :
    List (Nat × Duration) :=
  match s.time_remaining now_mono with
  | none => []
  | some remaining =>
    let elapsed := MonotonicInstant.duration_since now_mono s.started_at_mono
    ((s.plan.warning_times).filter
        (fun tw => decide (elapsed ≥ tw.2) && ! s.warnings_issued.contains tw.1)).map
      (fun tw => (tw.1, remaining))

/-- `ActiveSession::mark_warning_issued`. -/
def ActiveSession.mark_warning_issued (s : ActiveSession) (threshold : Nat) :
    ActiveSession :=
  let s :=
    if s.warnings_issued.contains threshold then s
    else { s with warnings_issued := s.warnings_issued ++ [threshold] }
  if s.state = .running then { s with state := .warned } else s

/-- `ActiveSession::mark_expiring`. -/
def ActiveSession.mark_expiring (s : ActiveSession) : ActiveSession :=
  { s with state := .expiring }

/-- `ActiveSession::mark_ended`. -/
def ActiveSession.mark_ended (s : ActiveSession) : ActiveSession :=
  { s with state := .ended }

/-- `ActiveSession::duration_so_far`. -/
def ActiveSession.duration_so_far (s : ActiveSession) (now_mono : MonotonicInstant) :
    Duration :=
  MonotonicInstant.duration_since now_mono s.started_at_mono

/-- `StopResult` (returned by `CoreEngine::stop_current`). -/
structure StopResult where
  session_id : String
  entry_id : String
  reason : SessionEndReason
  duration : Duration
deriving DecidableEq

/-! ## Core engine (`crates/shepherd-core/src/engine.rs`)

The engine holds the policy, the capability set and the at-most-one active
session; the store sits behind an `Arc<dyn Store>`, so every engine operation
here threads the `StoreState` explicitly and returns the updated one.
`SessionId::new()` (a fresh UUID) and `MonotonicInstant::now()` inside
`evaluate_entry` are ambient inputs of the Rust code; they appear as the
explicit parameters `fresh_session_id` and `now_mono`. -/

inductive CoreEvent where
  | sessionStarted (session_id entry_id label : String) (deadline : Option DateTime)
  | warning (session_id : String) (threshold_seconds : Nat) (time_remaining : Duration)
      (severity : WarningSeverity) (message : Option String)
  | expireDue (session_id : String)
  | sessionEnded (session_id entry_id : String) (reason : SessionEndReason)
      (duration : Duration)
  | entryAvailabilityChanged (entry_id : String) (enabled : Bool)
  | policyReloaded (entry_count : Nat)
deriving DecidableEq

inductive LaunchDecision where
  | approved (plan : SessionPlan)
  | denied (reasons : List ReasonCode)
deriving DecidableEq

structure CoreEngine where
  policy : Policy
  capabilities : HostCapabilities
  current_session : Option ActiveSession
deriving DecidableEq

/-- `CoreEngine::compute_max_duration`: minimum of `max_run`, time left in
the current window, and quota remaining; all-`None` means unlimited. -/
def CoreEngine.compute_max_duration (_e : CoreEngine) (store : StoreState) (entry : Entry)
    (now : DateTime) : Option Duration :=
  let max := entry.limits.max_run
  let max :=
    match entry.availability.remaining_in_window now with
    | some window_remaining =>
      some (match max with
            | some m => Nat.min m window_remaining
            | none => window_remaining)
    | none => max
  let max :=
    match entry.limits.daily_quota with
    | some quota =>
      let used := store.get_usage entry.id (dateNaive now)
      let remaining := quota - used
      some (match max with
            | some m => Nat.min m remaining
            | none => remaining)
    | none => max
  max

/-- `CoreEngine::evaluate_entry`: the six availability checks in source
order, accumulating `(reasons, enabled)`. -/
def CoreEngine.evaluate_entry (e : CoreEngine) (store : StoreState) (entry : Entry)
    (now : DateTime) (now_mono : MonotonicInstant) : EntryView :=
  let acc : List ReasonCode × Bool := ([], true)
  let acc : List ReasonCode × Bool :=
    if entry.disabled then (acc.1 ++ [.disabled entry.disabled_reason], false) else acc
  let kind_tag := entry.kind
  let acc : List ReasonCode × Bool :=
    if ! e.capabilities.supports_kind kind_tag then
      (acc.1 ++ [.unsupportedKind kind_tag], false)
    else acc
  let acc : List ReasonCode × Bool :=
    if ! entry.availability.is_available now then
      (acc.1 ++ [.outsideTimeWindow none], false)
    else acc
  let acc : List ReasonCode × Bool :=
    match e.current_session with
    | some session =>
      (acc.1 ++ [.sessionActive session.plan.entry_id (session.time_remaining now_mono)],
       false)
    | none => acc
  let acc : List ReasonCode × Bool :=
    match store.get_cooldown_until entry.id with
    | some until_ =>
      if until_ > now then (acc.1 ++ [.cooldownActive until_], false) else acc
    | none => acc
  let acc : List ReasonCode × Bool :=
    match entry.limits.daily_quota with
    | some quota =>
      let used := store.get_usage entry.id (dateNaive now)
      if used ≥ quota then (acc.1 ++ [.quotaExhausted used quota], false) else acc
    | none => acc
  let max_run_if_started_now :=
    if acc.2 then e.compute_max_duration store entry now else none
  { entry_id := entry.id
    label := entry.label
    icon_ref := entry.icon_ref
    kind_tag := kind_tag
    enabled := acc.2
    reasons := acc.1
    max_run_if_started_now := max_run_if_started_now }

/-- `CoreEngine::list_entries`. -/
def CoreEngine.list_entries (e : CoreEngine) (store : StoreState) (now : DateTime)
    (now_mono : MonotonicInstant) : List EntryView :=
  e.policy.entries.map (fun entry => e.evaluate_entry store entry now now_mono)

/-- `CoreEngine::request_launch`: unknown entry is denied with a single
`Disabled` reason and no audit write; otherwise re-evaluate, audit a denial,
or build the session plan. -/
def CoreEngine.request_launch (e : CoreEngine) (store : StoreState) (entry_id : String)
    (fresh_session_id : String) (now : DateTime) (now_mono : MonotonicInstant) :
    LaunchDecision × StoreState :=
  match e.policy.get_entry entry_id with
  | none => (.denied [.disabled (some "Entry not found")], store)
  | some entry =>
    let view := e.evaluate_entry store entry now now_mono
    if ! view.enabled then
      let store := (store.append_audit
        (AuditEvent.new (.launchDenied entry_id view.reasons))).1
      (.denied view.reasons, store)
    else
      let plan : SessionPlan :=
        { session_id := fresh_session_id
          entry_id := entry_id
          label := entry.label
          max_duration := view.max_run_if_started_now
          warnings := entry.warnings }
      (.approved plan, store)

/-- `CoreEngine::start_session`. -/
def CoreEngine.start_session (e : CoreEngine) (store : StoreState) (plan : SessionPlan)
    (now : DateTime) (now_mono : MonotonicInstant) :
    CoreEngine × StoreState × CoreEvent :=
  let session := ActiveSession.new plan now now_mono
  let event := CoreEvent.sessionStarted session.plan.session_id session.plan.entry_id
    session.plan.label session.deadline
  let store := (store.append_audit (AuditEvent.new
    (.sessionStarted session.plan.session_id session.plan.entry_id
      session.plan.label session.deadline))).1
  ({ e with current_session := some session }, store, event)

/-- `CoreEngine::attach_host_handle`. -/
def CoreEngine.attach_host_handle (e : CoreEngine) (handle : HostSessionHandle) :
    CoreEngine :=
  match e.current_session with
  | some session => { e with current_session := some (session.attach_handle handle) }
  | none => e

/-- The body of the warning loop inside `CoreEngine::tick`: for each pending
`(threshold, remaining)` pair, look up severity and message, mark the
threshold issued, append the audit record and emit the `Warning` event. -/
def warnLoop : List (Nat × Duration) → ActiveSession → StoreState →
    ActiveSession × StoreState × List CoreEvent
  | [], session, store => (session, store, [])
  | (threshold, remaining) :: rest, session, store =>
    let severity :=
      ((session.plan.warnings.find? (fun w => w.seconds_before == threshold)).map
        (fun w => w.severity)).getD .warn
    let message :=
      (session.plan.warnings.find? (fun w => w.seconds_before == threshold)).bind
        (fun w => w.message_template)
    let session := session.mark_warning_issued threshold
    let store := (store.append_audit (AuditEvent.new
      (.warningIssued session.plan.session_id threshold))).1
    let ev := CoreEvent.warning session.plan.session_id threshold remaining severity message
    let next := warnLoop rest session store
    (next.1, next.2.1, ev :: next.2.2)

/-- `CoreEngine::tick`: issue due warnings, then check for expiry. -/
def CoreEngine.tick (e : CoreEngine) (store : StoreState)
    (now_mono : MonotonicInstant) : CoreEngine × StoreState × List CoreEvent :=
  match e.current_session with
  | none => (e, store, [])
  | some session =>
    let step := warnLoop (session.pending_warnings now_mono) session store
    let session := step.1
    let store := step.2.1
    let events := step.2.2
    if session.is_expired now_mono ∧ session.state ≠ .expiring ∧ session.state ≠ .ended then
      let session := session.mark_expiring
      ({ e with current_session := some session }, store,
        events ++ [CoreEvent.expireDue session.plan.session_id])
    else
      ({ e with current_session := some session }, store, events)

/-- `CoreEngine::notify_session_exited`: consume the session, account usage,
set the cooldown when configured, audit and emit `SessionEnded`. -/
def CoreEngine.notify_session_exited (e : CoreEngine) (store : StoreState)
    (exit_code : Option Int) (now_mono : MonotonicInstant) (now : DateTime) :
    CoreEngine × StoreState × Option CoreEvent :=
  match e.current_session with
  | none => (e, store, none)
  | some session =>
    let e := { e with current_session := none }
    let duration := session.duration_so_far now_mono
    let reason :=
      if session.state = .expiring then SessionEndReason.expired
      else SessionEndReason.processExited exit_code
    let store := (store.add_usage session.plan.entry_id (dateNaive now) duration).1
    let store :=
      match e.policy.get_entry session.plan.entry_id with
      | some entry =>
        match entry.limits.cooldown with
        | some cooldown =>
          (store.set_cooldown_until session.plan.entry_id (now + (cooldown : Int))).1
        | none => store
      | none => store
    let store := (store.append_audit (AuditEvent.new
      (.sessionEnded session.plan.session_id session.plan.entry_id reason duration))).1
    (e, store,
      some (CoreEvent.sessionEnded session.plan.session_id session.plan.entry_id
        reason duration))

/-- `CoreEngine::extend_current`: only sessions with a deadline can be
extended; both deadline fields advance by `by` and the extension is audited. -/
def CoreEngine.extend_current (e : CoreEngine) (store : StoreState) (by_ : Duration)
    (_now_mono : MonotonicInstant) (_now : DateTime) :
    CoreEngine × StoreState × Option DateTime :=
  match e.current_session with
  | none => (e, store, none)
  | some session =>
    match session.deadline_mono, session.deadline with
    | some deadline_mono, some deadline =>
      let new_deadline_mono := deadline_mono + by_
      let new_deadline := deadline + (by_ : Int)
      let session :=
        { session with
            deadline_mono := some new_deadline_mono
            deadline := some new_deadline }
      let store := (store.append_audit (AuditEvent.new
        (.sessionExtended session.plan.session_id by_ new_deadline))).1
      ({ e with current_session := some session }, store, some new_deadline)
    | _, _ => (e, store, none)

/-! ## Orchestrator launch path (`crates/shepherdd/src/main.rs`)

The `Command::Launch` arm of `Service::handle_command`. The host supervisor's
`spawn` is an external call; its outcome is the explicit `SpawnResult`
parameter. Broadcast events are collected into a list in emission order.
`ServiceStateSnapshot` is reduced to the field the launch path's clients act
on, the current session's state (`None` when idle); the request id, spawn
options and log-path plumbing do not affect the engine or the store and are
omitted. -/

inductive SpawnResult where
  | ok (handle : HostSessionHandle)
  | err (error : String)
deriving DecidableEq

inductive EventPayload where
  | sessionStarted (session_id entry_id label : String) (deadline : Option DateTime)
  | sessionEnded (session_id entry_id : String) (reason : SessionEndReason)
      (duration : Duration)
  | stateChanged (current_session_state : Option SessionState)
deriving DecidableEq

inductive ErrorCode where
  | entryNotFound | hostError | internalError
deriving DecidableEq

inductive ResponsePayload where
  | launchApproved (session_id : String) (deadline : Option DateTime)
  | launchDenied (reasons : List ReasonCode)
  | error (code : ErrorCode) (message : String)
deriving DecidableEq

/-- The current-session state recorded in `CoreEngine::get_state`'s snapshot. -/
def CoreEngine.get_state_session (e : CoreEngine) : Option SessionState :=
  e.current_session.map (fun s => s.state)

/-- The `Command::Launch` arm of `Service::handle_command`: request a launch,
start the session, spawn; on spawn success attach the handle and broadcast
`SessionStarted`; on spawn failure run `notify_session_exited(Some(-1))` and
broadcast `SessionEnded` followed by `StateChanged`. -/
def handleLaunch (engine : CoreEngine) (store : StoreState) (entry_id : String)
    (fresh_session_id : String) (spawn : SpawnResult) (now : DateTime)
    (now_mono : MonotonicInstant) :
    CoreEngine × StoreState × List EventPayload × ResponsePayload :=
  match engine.request_launch store entry_id fresh_session_id now now_mono with
  | (.denied reasons, store) => (engine, store, [], .launchDenied reasons)
  | (.approved plan, store) =>
    let started := engine.start_session store plan now now_mono
    let engine := started.1
    let store := started.2.1
    let event := started.2.2
    match engine.policy.get_entry entry_id with
    | none => (engine, store, [], .error .entryNotFound "Entry not found")
    | some _entry =>
      match spawn with
      | .ok handle =>
        let engine := engine.attach_host_handle handle
        match event with
        | .sessionStarted session_id eid label deadline =>
          (engine, store, [.sessionStarted session_id eid label deadline],
            .launchApproved session_id deadline)
        | _ => (engine, store, [], .error .internalError "Unexpected event")
      | .err msg =>
        let exited := engine.notify_session_exited store (some (-1)) now_mono now
        let engine := exited.1
        let store := exited.2.1
        match exited.2.2 with
        | some (.sessionEnded session_id eid reason duration) =>
          (engine, store,
            [.sessionEnded session_id eid reason duration,
             .stateChanged engine.get_state_session],
            .error .hostError ("Spawn failed: " ++ msg))
        | _ => (engine, store, [], .error .hostError ("Spawn failed: " ++ msg))

/-! ## Tick harness

A session's lifetime, as far as warnings are concerned, is a sequence of
`CoreEngine::tick` calls; `tickRun` chains them and concatenates the emitted
events in order. -/

def tickRun (e : CoreEngine) (store : StoreState) :
    List MonotonicInstant → CoreEngine × StoreState × List CoreEvent
  | [] => (e, store, [])
  | now_mono :: rest =>
    let step := e.tick store now_mono
    let next := tickRun step.1 step.2.1 rest
    (next.1, next.2.1, step.2.2 ++ next.2.2)

/-- Count of `Warning` events carrying a given threshold. -/
def countWarn (t : Nat) (events : List CoreEvent) : Nat :=
  events.countP (fun ev =>
    match ev with
    | .warning _ threshold _ _ _ => threshold == t
    | _ => false)

/-- Count of `WarningIssued` audit records carrying a given threshold. -/
def countAuditWarn (t : Nat) (log : List AuditEvent) : Nat :=
  log.countP (fun rec =>
    match rec.event with
    | .warningIssued _ threshold => threshold == t
    | _ => false)

/-! ## Concrete fixtures -/

def alwaysAvailable : AvailabilityPolicy := { windows := [], always := true }

def procCaps : HostCapabilities := { spawn_kinds_supported := [.process] }

def emptyStore : StoreState :=
  { nextAuditId := 1, auditLog := [], usage := [], cooldowns := [] }

/-- An always-available process entry with a 60 s run limit and no quota or
cooldown. -/
def gameEntry : Entry :=
  { id := "game", label := "Game", icon_ref := none, kind := .process
    availability := alwaysAvailable
    limits := { max_run := some (Duration.fromSecs 60), daily_quota := none, cooldown := none }
    warnings := [], disabled := false, disabled_reason := none }

def gameEngine : CoreEngine :=
  { policy := { entries := [gameEntry] }, capabilities := procCaps, current_session := none }

/-- An entry with a 300 s cooldown configured. -/
def coolEntry : Entry :=
  { id := "cool", label := "Cool", icon_ref := none, kind := .process
    availability := alwaysAvailable
    limits := { max_run := some (Duration.fromSecs 60), daily_quota := none
                cooldown := some (Duration.fromSecs 300) }
    warnings := [], disabled := false, disabled_reason := none }

def coolEngine : CoreEngine :=
  { policy := { entries := [coolEntry] }, capabilities := procCaps, current_session := none }

/-- An entry with a 60 s daily quota. -/
def limEntry : Entry :=
  { id := "limited", label := "Limited", icon_ref := none, kind := .process
    availability := alwaysAvailable
    limits := { max_run := none, daily_quota := some (Duration.fromSecs 60), cooldown := none }
    warnings := [], disabled := false, disabled_reason := none }

def limEngine : CoreEngine :=
  { policy := { entries := [limEntry] }, capabilities := procCaps, current_session := none }

/-- A store holding an exhausted quota row for `limited` today (day 0) and a
cooldown-until of 100 for it. -/
def limStore : StoreState :=
  { nextAuditId := 1, auditLog := [], usage := [(("limited", 0), 60)]
    cooldowns := [("limited", 100)] }

def fixtureAudit : AuditEvent := AuditEvent.new (.policyLoaded 1)

def storeIdOne : StoreState := emptyStore

def storeIdTwo : StoreState := { emptyStore with nextAuditId := 2 }

/-- A session plan whose warning list repeats the 5 s threshold. -/
def dupPlan : SessionPlan :=
  { session_id := "dup-session", entry_id := "dup", label := "Dup"
    max_duration := some (Duration.fromSecs 10)
    warnings := [{ seconds_before := 5, severity := .warn, message_template := none },
                 { seconds_before := 5, severity := .critical, message_template := none }] }

def dupEngine : CoreEngine :=
  { policy := { entries := [] }, capabilities := procCaps
    current_session := some (ActiveSession.new dupPlan 0 0) }

/-- A session plan with distinct 5 s and 2 s thresholds over a 10 s limit. -/
def twoWarnPlan : SessionPlan :=
  { session_id := "two-session", entry_id := "two", label := "Two"
    max_duration := some (Duration.fromSecs 10)
    warnings := [{ seconds_before := 5, severity := .warn, message_template := none },
                 { seconds_before := 2, severity := .critical, message_template := none }] }

def twoWarnEngine : CoreEngine :=
  { policy := { entries := [] }, capabilities := procCaps
    current_session := some (ActiveSession.new twoWarnPlan 0 0) }

/-- A plan with no maximum duration (an unlimited session). -/
def unlimPlan : SessionPlan :=
  { session_id := "unlim-session", entry_id := "unlim", label := "Unlim"
    max_duration := none, warnings := [] }

def unlimEngine : CoreEngine :=
  { policy := { entries := [] }, capabilities := procCaps
    current_session := some (ActiveSession.new unlimPlan 0 0) }

/-! ## Helper lemmas -/

/-- `Policy::get_entry` returns an entry whose id is the one looked up. -/
theorem get_entry_eq_id (p : Policy) (id : String) (entry : Entry)
    (h : p.get_entry id = some entry) : entry.id = id := by
  unfold Policy.get_entry at h
  have hpred := List.find?_some h
  simpa using hpred

/-- A threshold already in `warnings_issued` never appears among the pending
warning thresholds. -/
theorem pending_fst_not_mem_of_issued (s : ActiveSession) (t : Nat)
    (nm : MonotonicInstant) (h : t ∈ s.warnings_issued) :
    t ∉ (s.pending_warnings nm).map Prod.fst := by
  unfold ActiveSession.pending_warnings
  cases htr : s.time_remaining nm with
  | none => simp
  | some remaining =>
    simp only [List.map_map, List.mem_map, Function.comp, not_exists]
    rintro tw ⟨hmem, hfst⟩
    have hfilter := (List.mem_filter.mp hmem).2
    simp only [Bool.and_eq_true, decide_eq_true_eq, Bool.not_eq_true'] at hfilter
    have hcontains : s.warnings_issued.contains tw.1 = true := by
      rw [hfst]
      simpa using h
    rw [hfilter.2] at hcontains
    exact Bool.false_ne_true hcontains

/-- A threshold already in `warnings_issued` never appears among the pending
warnings, whatever remaining time is attached. -/
theorem pair_not_mem_pending_of_issued (s : ActiveSession) (t : Nat) (r : Duration)
    (nm : MonotonicInstant) (h : t ∈ s.warnings_issued) :
    (t, r) ∉ s.pending_warnings nm := by
  intro hmem
  exact pending_fst_not_mem_of_issued s t nm h (List.mem_map_of_mem Prod.fst hmem)

/-- An active cooldown forces `evaluate_entry` to disable the entry and
record the `CooldownActive` reason. -/
theorem evaluate_entry_cooldown_denies (e : CoreEngine) (store : StoreState)
    (entry : Entry) (now : DateTime) (now_mono : MonotonicInstant) (until_ : DateTime)
    (hcd : store.get_cooldown_until entry.id = some until_) (hlt : until_ > now) :
    (e.evaluate_entry store entry now now_mono).enabled = false ∧
    ReasonCode.cooldownActive until_ ∈ (e.evaluate_entry store entry now now_mono).reasons := by
  unfold CoreEngine.evaluate_entry
  rw [hcd]
  cases hq : entry.limits.daily_quota with
  | none => simp [hlt]
  | some quota =>
    by_cases hu : store.get_usage entry.id (dateNaive now) ≥ quota
    · simp [hlt, hu]
    · simp [hlt, hu]

/-- An exhausted daily quota forces `evaluate_entry` to disable the entry and
record the `QuotaExhausted` reason. -/
theorem evaluate_entry_quota_denies (e : CoreEngine) (store : StoreState)
    (entry : Entry) (now : DateTime) (now_mono : MonotonicInstant) (quota : Duration)
    (hq : entry.limits.daily_quota = some quota)
    (hu : store.get_usage entry.id (dateNaive now) ≥ quota) :
    (e.evaluate_entry store entry now now_mono).enabled = false ∧
    ReasonCode.quotaExhausted (store.get_usage entry.id (dateNaive now)) quota ∈
      (e.evaluate_entry store entry now now_mono).reasons := by
  unfold CoreEngine.evaluate_entry
  rw [hq]
  simp [hu]

/-- A disabled `EntryView` makes `request_launch` deny with the view's
reasons. -/
theorem request_launch_denied_of_disabled_view (e : CoreEngine) (store : StoreState)
    (entry_id fresh : String) (now : DateTime) (now_mono : MonotonicInstant) (entry : Entry)
    (hfound : e.policy.get_entry entry_id = some entry)
    (hview : (e.evaluate_entry store entry now now_mono).enabled = false) :
    (e.request_launch store entry_id fresh now now_mono).1 =
      .denied (e.evaluate_entry store entry now now_mono).reasons := by
  unfold CoreEngine.request_launch
  rw [hfound]
  simp [hview]

/-! ## C5 — cooldown and quota denials -/

/-- Claim C5: for a launch request on a policy entry, an active cooldown
(`cooldown_until > now`) yields a denial whose reasons contain
`CooldownActive { available_at }`, and an exhausted daily quota
(`usage(entry, today) ≥ quota`) yields a denial whose reasons contain
`QuotaExhausted { used, quota }`. -/
theorem C5_cooldown_quota_denial (e : CoreEngine) (store : StoreState)
    (entry_id fresh : String) (entry : Entry) (now : DateTime)
    (now_mono : MonotonicInstant)
    (hfound : e.policy.get_entry entry_id = some entry) :
    (∀ until_, store.get_cooldown_until entry_id = some until_ → until_ > now →
      ∃ reasons, (e.request_launch store entry_id fresh now now_mono).1 = .denied reasons ∧
        ReasonCode.cooldownActive until_ ∈ reasons) ∧
    (∀ quota, entry.limits.daily_quota = some quota →
      store.get_usage entry_id (dateNaive now) ≥ quota →
      ∃ reasons, (e.request_launch store entry_id fresh now now_mono).1 = .denied reasons ∧
        ReasonCode.quotaExhausted (store.get_usage entry_id (dateNaive now)) quota ∈
          reasons) := by
  have hid : entry.id = entry_id := get_entry_eq_id _ _ _ hfound
  constructor
  · intro until_ hcd hlt
    have h := evaluate_entry_cooldown_denies e store entry now now_mono until_
      (by rw [hid]; exact hcd) hlt
    exact ⟨_, request_launch_denied_of_disabled_view e store entry_id fresh now now_mono
      entry hfound h.1, h.2⟩
  · intro quota hq hu
    have h := evaluate_entry_quota_denies e store entry now now_mono quota hq
      (by rw [hid]; exact hu)
    rw [hid] at h
    exact ⟨_, request_launch_denied_of_disabled_view e store entry_id fresh now now_mono
      entry hfound h.1, h.2⟩

/-- Witness for C5: a store with an active cooldown row and an exhausted
quota row for the `limited` entry at `now = 50`. -/
theorem C5_cooldown_quota_denial_witness :
    (∃ reasons, (limEngine.request_launch limStore "limited" "sid" 50 0).1 =
        .denied reasons ∧ ReasonCode.cooldownActive 100 ∈ reasons) ∧
    (∃ reasons, (limEngine.request_launch limStore "limited" "sid" 50 0).1 =
        .denied reasons ∧
      ReasonCode.quotaExhausted (limStore.get_usage "limited" (dateNaive 50))
        (Duration.fromSecs 60) ∈ reasons) :=
  ⟨(C5_cooldown_quota_denial limEngine limStore "limited" "sid" limEntry 50 0
      (by decide)).1 100 (by decide) (by decide),
   (C5_cooldown_quota_denial limEngine limStore "limited" "sid" limEntry 50 0
      (by decide)).2 (Duration.fromSecs 60) (by decide) (by decide)⟩

/-! ## C6 — extend_current -/

/-- Claim C6: `extend_current` is rejected when there is no active session or
the session has no deadline; for a session with both deadline fields set it
adds exactly `by` to the monotonic and the wall-clock deadline, leaves the
`warnings_issued` set unchanged, and already-issued thresholds can never
become pending again. -/
theorem C6_extend_current (e : CoreEngine) (store : StoreState) (by_ : Duration)
    (now_mono : MonotonicInstant) (now : DateTime) :
    (e.current_session = none →
      e.extend_current store by_ now_mono now = (e, store, none)) ∧
    (∀ sess, e.current_session = some sess →
      sess.deadline_mono = none ∨ sess.deadline = none →
      e.extend_current store by_ now_mono now = (e, store, none)) ∧
    (∀ sess dm d, e.current_session = some sess →
      sess.deadline_mono = some dm → sess.deadline = some d →
      (e.extend_current store by_ now_mono now).2.2 = some (d + (by_ : Int)) ∧
      ∃ sess',
        (e.extend_current store by_ now_mono now).1.current_session = some sess' ∧
        sess'.deadline_mono = some (dm + by_) ∧
        sess'.deadline = some (d + (by_ : Int)) ∧
        sess'.warnings_issued = sess.warnings_issued ∧
        ∀ t r nm2, t ∈ sess.warnings_issued → (t, r) ∉ sess'.pending_warnings nm2) := by
  refine ⟨?_, ?_, ?_⟩
  · intro h
    simp [CoreEngine.extend_current, h]
  · rintro sess hs (hdm | hd)
    · simp [CoreEngine.extend_current, hs, hdm]
    · cases hdm2 : sess.deadline_mono <;>
        simp [CoreEngine.extend_current, hs, hd, hdm2]
  · intro sess dm d hs hdm hd
    refine ⟨by simp [CoreEngine.extend_current, hs, hdm, hd], ?_⟩
    refine ⟨{ sess with deadline_mono := some (dm + by_), deadline := some (d + (by_ : Int)) },
      by simp [CoreEngine.extend_current, hs, hdm, hd], rfl, rfl, rfl, ?_⟩
    intro t r nm2 ht
    exact pair_not_mem_pending_of_issued _ t r nm2 ht

/-- Witness for C6: no active session, an unlimited session, and a finite
session extended by 5 s. -/
theorem C6_extend_current_witness :
    gameEngine.extend_current emptyStore (Duration.fromSecs 5) 0 0 =
      (gameEngine, emptyStore, none) ∧
    unlimEngine.extend_current emptyStore (Duration.fromSecs 5) 0 0 =
      (unlimEngine, emptyStore, none) ∧
    (twoWarnEngine.extend_current emptyStore (Duration.fromSecs 5) 0 0).2.2 =
      some ((10000000000 : Int) + (Duration.fromSecs 5 : Int)) :=
  ⟨(C6_extend_current gameEngine emptyStore (Duration.fromSecs 5) 0 0).1 (by decide),
   (C6_extend_current unlimEngine emptyStore (Duration.fromSecs 5) 0 0).2.1
      (ActiveSession.new unlimPlan 0 0) rfl (Or.inl (by decide)),
   ((C6_extend_current twoWarnEngine emptyStore (Duration.fromSecs 5) 0 0).2.2
      (ActiveSession.new twoWarnPlan 0 0) 10000000000 10000000000 rfl
      (by decide) (by decide)).1⟩

/-- `mark_warning_issued` touches only `warnings_issued` and `state`. -/
theorem mark_warning_issued_fields (s : ActiveSession) (t : Nat) :
    (s.mark_warning_issued t).plan = s.plan ∧
    (s.mark_warning_issued t).deadline = s.deadline ∧
    (s.mark_warning_issued t).deadline_mono = s.deadline_mono ∧
    (s.mark_warning_issued t).started_at_mono = s.started_at_mono := by
  unfold ActiveSession.mark_warning_issued
  split <;> dsimp only <;> split <;> simp

/-- `warnLoop` touches only `warnings_issued` and `state` of the session. -/
theorem warnLoop_fields (l : List (Nat × Duration)) :
    ∀ (s : ActiveSession) (st : StoreState),
      (warnLoop l s st).1.plan = s.plan ∧
      (warnLoop l s st).1.deadline = s.deadline ∧
      (warnLoop l s st).1.deadline_mono = s.deadline_mono ∧
      (warnLoop l s st).1.started_at_mono = s.started_at_mono := by
  induction l with
  | nil => intro s st; simp [warnLoop]
  | cons hd tl ih =>
    intro s st
    obtain ⟨t, r⟩ := hd
    have h1 := mark_warning_issued_fields s t
    have h2 := ih (s.mark_warning_issued t)
      ((st.append_audit (AuditEvent.new
        (.warningIssued (s.mark_warning_issued t).plan.session_id t))).1)
    simp only [warnLoop]
    exact ⟨h2.1.trans h1.1, h2.2.1.trans h1.2.1, h2.2.2.1.trans h1.2.2.1,
      h2.2.2.2.trans h1.2.2.2⟩

/-- Shape of `CoreEngine::tick` when a session is active: the session, store
and events come from the warning loop, with `mark_expiring` applied and an
`ExpireDue` event appended exactly when the deadline has passed. -/
theorem tick_components (e : CoreEngine) (store : StoreState) (nm : MonotonicInstant)
    (sess : ActiveSession) (hs : e.current_session = some sess) :
    ((e.tick store nm).1.current_session =
        some (warnLoop (sess.pending_warnings nm) sess store).1 ∨
     (e.tick store nm).1.current_session =
        some (warnLoop (sess.pending_warnings nm) sess store).1.mark_expiring) ∧
    (e.tick store nm).2.1 = (warnLoop (sess.pending_warnings nm) sess store).2.1 ∧
    ((e.tick store nm).2.2 = (warnLoop (sess.pending_warnings nm) sess store).2.2 ∨
     (e.tick store nm).2.2 = (warnLoop (sess.pending_warnings nm) sess store).2.2 ++
       [CoreEvent.expireDue
         (warnLoop (sess.pending_warnings nm) sess store).1.plan.session_id]) := by
  unfold CoreEngine.tick
  simp only [hs]
  split
  · exact ⟨Or.inr rfl, rfl, Or.inr rfl⟩
  · exact ⟨Or.inl rfl, rfl, Or.inl rfl⟩

/-- Every threshold kept by `warning_times` is strictly below the maximum
duration. -/
theorem warning_times_lt (p : SessionPlan) (M : Duration) (hM : p.max_duration = some M) :
    ∀ tw ∈ p.warning_times, Duration.fromSecs tw.1 < M := by
  intro tw htw
  unfold SessionPlan.warning_times at htw
  rw [hM] at htw
  simp only [List.mem_map] at htw
  obtain ⟨w, hw, rfl⟩ := htw
  have hfil := (List.mem_filter.mp hw).2
  simpa using hfil

/-- Pending warning thresholds all come from the plan's warning schedule. -/
theorem pending_fst_mem_warning_times (s : ActiveSession) (nm : MonotonicInstant) :
    ∀ x ∈ (s.pending_warnings nm).map Prod.fst, x ∈ (s.plan.warning_times).map Prod.fst := by
  unfold ActiveSession.pending_warnings
  cases htr : s.time_remaining nm with
  | none => simp
  | some remaining =>
    intro x hx
    simp only [List.map_map, List.mem_map, Function.comp] at hx
    obtain ⟨tw, htw, rfl⟩ := hx
    exact List.mem_map_of_mem Prod.fst (List.mem_of_mem_filter htw)

/-- Every `Warning` event emitted by the warning loop carries a threshold
from the pending list. -/
theorem warnLoop_warning_mem (l : List (Nat × Duration)) :
    ∀ (s : ActiveSession) (st : StoreState) sid t r sev msg,
      CoreEvent.warning sid t r sev msg ∈ (warnLoop l s st).2.2 → t ∈ l.map Prod.fst := by
  induction l with
  | nil => simp [warnLoop]
  | cons hd tl ih =>
    intro s st sid t r sev msg hmem
    obtain ⟨t0, r0⟩ := hd
    simp only [warnLoop, List.mem_cons] at hmem
    rcases hmem with heq | hmem
    · cases heq
      simp
    · have := ih _ _ _ _ _ _ _ hmem
      simp only [List.map_cons, List.mem_cons]
      exact Or.inr this

/-- The warning loop appends only `WarningIssued` audit records, one per
pending threshold. -/
theorem warnLoop_auditLog (l : List (Nat × Duration)) :
    ∀ (s : ActiveSession) (st : StoreState),
      ∃ newRecs, (warnLoop l s st).2.1.auditLog = st.auditLog ++ newRecs ∧
        ∀ rec ∈ newRecs, ∀ sid t, rec.event = .warningIssued sid t → t ∈ l.map Prod.fst := by
  induction l with
  | nil =>
    intro s st
    exact ⟨[], by simp [warnLoop], by simp⟩
  | cons hd tl ih =>
    intro s st
    obtain ⟨t0, r0⟩ := hd
    obtain ⟨recs, hrecs, hprop⟩ := ih (s.mark_warning_issued t0)
      ((st.append_audit (AuditEvent.new
        (.warningIssued (s.mark_warning_issued t0).plan.session_id t0))).1)
    refine ⟨{ id := st.nextAuditId
              event := .warningIssued (s.mark_warning_issued t0).plan.session_id t0 } :: recs,
      ?_, ?_⟩
    · simp only [warnLoop]
      rw [hrecs]
      simp [StoreState.append_audit, AuditEvent.new]
    · rintro rec hrec sid t hev
      rcases List.mem_cons.mp hrec with rfl | hrec
      · cases hev
        simp
      · simp only [List.map_cons, List.mem_cons]
        exact Or.inr (hprop rec hrec sid t hev)

/-- Projections of a freshly created session. -/
theorem ActiveSession_new_plan (plan : SessionPlan) (now : DateTime)
    (nm : MonotonicInstant) : (ActiveSession.new plan now nm).plan = plan := rfl

theorem ActiveSession_new_state (plan : SessionPlan) (now : DateTime)
    (nm : MonotonicInstant) : (ActiveSession.new plan now nm).state = .launching := rfl

theorem ActiveSession_new_started_at_mono (plan : SessionPlan) (now : DateTime)
    (nm : MonotonicInstant) : (ActiveSession.new plan now nm).started_at_mono = nm := rfl

/-- A session observed at its own start instant has run for zero time. -/
theorem ActiveSession_new_duration_so_far_self (plan : SessionPlan) (now : DateTime)
    (nm : MonotonicInstant) : (ActiveSession.new plan now nm).duration_so_far nm = 0 := by
  unfold ActiveSession.duration_so_far MonotonicInstant.duration_since
  rw [ActiveSession_new_started_at_mono]
  exact Nat.sub_self nm

/-- Store observations that commute with `append_audit`, `add_usage` and
`set_cooldown_until`. -/
theorem append_audit_get_usage (s : StoreState) (ev : AuditEvent) (x : String) (d : Int) :
    (s.append_audit ev).1.get_usage x d = s.get_usage x d := rfl

theorem append_audit_get_cooldown (s : StoreState) (ev : AuditEvent) (x : String) :
    (s.append_audit ev).1.get_cooldown_until x = s.get_cooldown_until x := rfl

theorem set_cooldown_get_usage (s : StoreState) (k : String) (u : DateTime) (x : String)
    (d : Int) : (s.set_cooldown_until k u).1.get_usage x d = s.get_usage x d := rfl

theorem add_usage_get_cooldown (s : StoreState) (k : String) (day : Int) (dur : Duration)
    (x : String) : (s.add_usage k day dur).1.get_cooldown_until x = s.get_cooldown_until x :=
  rfl

/-- Upserting a zero usage increment never changes any observed usage. -/
theorem lookupUsage_upsert_zero (l : List ((String × Int) × Nat)) (key k : String × Int) :
    (lookupUsage (upsertUsage l key 0) k).getD 0 = (lookupUsage l k).getD 0 := by
  induction l with
  | nil =>
    by_cases h : key = k <;> simp [upsertUsage, lookupUsage, h]
  | cons hd tl ih =>
    obtain ⟨k0, v⟩ := hd
    by_cases h0 : k0 = key
    · subst h0
      by_cases hk : k0 = k <;> simp [upsertUsage, lookupUsage, hk]
    · by_cases hk : k0 = k
      · subst hk
        simp [upsertUsage, lookupUsage, h0]
      · simp [upsertUsage, lookupUsage, h0, hk, ih]

/-- Charging a zero duration leaves every observed usage value unchanged. -/
theorem add_usage_zero_get_usage (s : StoreState) (k : String) (day : Int) (x : String)
    (d : Int) : (s.add_usage k day 0).1.get_usage x d = s.get_usage x d := by
  unfold StoreState.add_usage StoreState.get_usage
  exact congrArg Duration.fromSecs (lookupUsage_upsert_zero s.usage (k, day) (x, d))

/-- Upserting a cooldown makes it the stored value for that key. -/
theorem lookupCooldown_upsert_self (l : List (String × DateTime)) (key : String)
    (u : DateTime) : lookupCooldown (upsertCooldown l key u) key = some u := by
  induction l with
  | nil => simp [upsertCooldown, lookupCooldown]
  | cons hd tl ih =>
    obtain ⟨k0, v⟩ := hd
    by_cases h : k0 = key
    · subst h
      simp [upsertCooldown, lookupCooldown]
    · simp [upsertCooldown, lookupCooldown, h, ih]

theorem set_cooldown_get_cooldown_self (s : StoreState) (k : String) (u : DateTime) :
    (s.set_cooldown_until k u).1.get_cooldown_until k = some u :=
  lookupCooldown_upsert_self s.cooldowns k u

/-- An approved `request_launch` pins down the looked-up entry, the enabled
view and the shape of the produced plan, and leaves the store untouched. -/
theorem request_launch_approved_shape (e : CoreEngine) (store : StoreState)
    (entry_id fresh : String) (now : DateTime) (now_mono : MonotonicInstant)
    (plan : SessionPlan)
    (happ : (e.request_launch store entry_id fresh now now_mono).1 = .approved plan) :
    ∃ entry, e.policy.get_entry entry_id = some entry ∧
      (e.evaluate_entry store entry now now_mono).enabled = true ∧
      plan = { session_id := fresh, entry_id := entry_id, label := entry.label
               max_duration := (e.evaluate_entry store entry now now_mono).max_run_if_started_now
               warnings := entry.warnings } ∧
      e.request_launch store entry_id fresh now now_mono = (.approved plan, store) := by
  unfold CoreEngine.request_launch at happ ⊢
  cases hfound : e.policy.get_entry entry_id with
  | none =>
    simp only [hfound] at happ
    exact absurd happ (by simp)
  | some entry =>
    simp only [hfound] at happ ⊢
    by_cases hen : (e.evaluate_entry store entry now now_mono).enabled
    · simp only [hen, Bool.not_true, Bool.false_eq_true, if_false] at happ ⊢
      refine ⟨entry, rfl, hen, ?_, ?_⟩
      · exact (LaunchDecision.approved.inj happ).symm
      · rw [← (LaunchDecision.approved.inj happ)]
    · simp only [Bool.not_eq_true] at hen
      simp only [hen, Bool.not_false, if_true] at happ
      exact absurd happ (by simp)

/-- Outcome of the launch path when the spawn fails: the session is removed,
`SessionEnded (ProcessExited -1)` and `StateChanged` are broadcast, the
response is a host error, usage is charged zero, and the cooldown is written
exactly when the entry has one configured. -/
theorem handleLaunch_err_components (e : CoreEngine) (store : StoreState)
    (entry_id fresh msg : String) (now : DateTime) (now_mono : MonotonicInstant)
    (plan : SessionPlan)
    (happ : (e.request_launch store entry_id fresh now now_mono).1 = .approved plan) :
    ∃ entry, e.policy.get_entry entry_id = some entry ∧
      (handleLaunch e store entry_id fresh (.err msg) now now_mono).1.current_session =
        none ∧
      (handleLaunch e store entry_id fresh (.err msg) now now_mono).2.2.1 =
        [EventPayload.sessionEnded fresh entry_id (.processExited (some (-1))) 0,
         EventPayload.stateChanged none] ∧
      (handleLaunch e store entry_id fresh (.err msg) now now_mono).2.2.2 =
        .error .hostError ("Spawn failed: " ++ msg) ∧
      (∀ x d,
        (handleLaunch e store entry_id fresh (.err msg) now now_mono).2.1.get_usage x d =
          store.get_usage x d) ∧
      (entry.limits.cooldown = none → ∀ x,
        (handleLaunch e store entry_id fresh
          (.err msg) now now_mono).2.1.get_cooldown_until x =
          store.get_cooldown_until x) ∧
      (∀ c, entry.limits.cooldown = some c →
        (handleLaunch e store entry_id fresh
          (.err msg) now now_mono).2.1.get_cooldown_until entry_id =
          some (now + (c : Int))) := by
  obtain ⟨entry, hfound, hen, hplan, hpair⟩ :=
    request_launch_approved_shape e store entry_id fresh now now_mono plan happ
  have hsid : plan.session_id = fresh := by rw [hplan]
  have hent : plan.entry_id = entry_id := by rw [hplan]
  have hlab : plan.label = entry.label := by rw [hplan]
  have hres : handleLaunch e store entry_id fresh (.err msg) now now_mono =
      (let s1 := (store.append_audit (AuditEvent.new (.sessionStarted fresh entry_id
           entry.label (ActiveSession.new plan now now_mono).deadline))).1
       let s2 := (s1.add_usage entry_id (dateNaive now) 0).1
       let s3 :=
         match entry.limits.cooldown with
         | some cooldown => (s2.set_cooldown_until entry_id (now + (cooldown : Int))).1
         | none => s2
       let s4 := (s3.append_audit (AuditEvent.new (.sessionEnded fresh entry_id
           (.processExited (some (-1))) 0))).1
       ({ e with current_session := none }, s4,
        [EventPayload.sessionEnded fresh entry_id (.processExited (some (-1))) 0,
         EventPayload.stateChanged none],
        .error .hostError ("Spawn failed: " ++ msg))) := by
    unfold handleLaunch
    simp only [hpair]
    unfold CoreEngine.start_session CoreEngine.notify_session_exited
      CoreEngine.get_state_session
    simp [ActiveSession_new_plan, ActiveSession_new_state,
      ActiveSession_new_duration_so_far_self, hsid, hent, hlab, hfound]
  refine ⟨entry, hfound, by rw [hres], by rw [hres], by rw [hres], ?_, ?_, ?_⟩
  · intro x d
    rw [hres]
    cases hcd : entry.limits.cooldown with
    | none =>
      simp only [hcd, append_audit_get_usage, add_usage_zero_get_usage]
    | some c =>
      simp only [hcd, append_audit_get_usage, set_cooldown_get_usage,
        add_usage_zero_get_usage]
  · intro hcd x
    rw [hres]
    simp only [hcd, append_audit_get_cooldown, add_usage_get_cooldown]
  · intro c hcd
    rw [hres]
    simp only [hcd, append_audit_get_cooldown, set_cooldown_get_cooldown_self]

/-! ## C1 — spawn failure ends the session -/

/-- The plan the engine approves for `gameEngine` with session id `sid-w1`. -/
def gamePlanW : SessionPlan :=
  { session_id := "sid-w1", entry_id := "game", label := "Game"
    max_duration := some (Duration.fromSecs 60), warnings := [] }

/-- Claim C1 as stated is false: on spawn failure the broadcast
`SessionEnded` carries end reason `ProcessExited { exit_code: -1 }` (via
`notify_session_exited(Some(-1))`), not `LaunchFailed { error }` — no event
with a `LaunchFailed` reason is emitted. -/
theorem C1_spawn_failure_counterexample :
    (handleLaunch gameEngine emptyStore "game" "sid-1" (.err "boom") 0 0).2.2.1 =
      [EventPayload.sessionEnded "sid-1" "game" (.processExited (some (-1))) 0,
       EventPayload.stateChanged none] ∧
    ((handleLaunch gameEngine emptyStore "game" "sid-1" (.err "boom") 0 0).2.2.1.any
      (fun ev =>
        match ev with
        | EventPayload.sessionEnded _ _ (.launchFailed _) _ => true
        | _ => false)) = false := by
  decide

/-- Claim C1, amended: whenever the engine approves the launch and the host
spawn then fails, the service drops the active session (so the broadcast
snapshot carries no session and no client is left in Launching) and
broadcasts `SessionEnded` — with end reason `ProcessExited { exit_code: -1 }`
rather than `LaunchFailed { error }` — followed by `StateChanged`. -/
theorem C1_spawn_failure_session_ended (e : CoreEngine) (store : StoreState)
    (entry_id fresh msg : String) (now : DateTime) (now_mono : MonotonicInstant)
    (plan : SessionPlan)
    (happ : (e.request_launch store entry_id fresh now now_mono).1 = .approved plan) :
    (handleLaunch e store entry_id fresh (.err msg) now now_mono).1.current_session =
      none ∧
    (handleLaunch e store entry_id fresh (.err msg) now now_mono).2.2.1 =
      [EventPayload.sessionEnded fresh entry_id (.processExited (some (-1))) 0,
       EventPayload.stateChanged none] ∧
    (handleLaunch e store entry_id fresh (.err msg) now now_mono).2.2.2 =
      .error .hostError ("Spawn failed: " ++ msg) := by
  obtain ⟨entry, _, h1, h2, h3, _⟩ := handleLaunch_err_components e store entry_id fresh
    msg now now_mono plan happ
  exact ⟨h1, h2, h3⟩

/-- Witness for the amended C1 at a concrete approved launch. -/
theorem C1_spawn_failure_session_ended_witness :
    (handleLaunch gameEngine emptyStore "game" "sid-w1"
        (.err "x") 0 0).1.current_session = none ∧
    (handleLaunch gameEngine emptyStore "game" "sid-w1" (.err "x") 0 0).2.2.1 =
      [EventPayload.sessionEnded "sid-w1" "game" (.processExited (some (-1))) 0,
       EventPayload.stateChanged none] ∧
    (handleLaunch gameEngine emptyStore "game" "sid-w1" (.err "x") 0 0).2.2.2 =
      .error .hostError ("Spawn failed: " ++ "x") :=
  C1_spawn_failure_session_ended gameEngine emptyStore "game" "sid-w1" "x" 0 0
    gamePlanW (by decide)

/-! ## C7 — failed launches and accounting -/

/-- The plan the engine approves for `coolEngine` with session id `sid-w7`. -/
def coolPlanW : SessionPlan :=
  { session_id := "sid-w7", entry_id := "cool", label := "Cool"
    max_duration := some (Duration.fromSecs 60), warnings := [] }

/-- Claim C7 as stated is false: a failed spawn for an entry with a
configured cooldown writes `cooldown_until = now + cooldown` for that entry,
because the spawn-error branch runs the full `notify_session_exited`
bookkeeping. -/
theorem C7_launch_failed_counterexample :
    emptyStore.get_cooldown_until "cool" = none ∧
    (handleLaunch coolEngine emptyStore "cool" "sid-7"
      (.err "boom") 1000 5).2.1.get_cooldown_until "cool" =
      some (1000 + (300000000000 : Int)) := by
  decide

/-- Claim C7, amended: a session ended by spawn failure charges zero usage —
every usage value observed in the store is unchanged — but it does write a
cooldown: when the entry has one configured, `cooldown_until` is set to
`now + cooldown`; only entries without a cooldown leave the cooldown map
unchanged. -/
theorem C7_launch_failed_bookkeeping (e : CoreEngine) (store : StoreState)
    (entry_id fresh msg : String) (now : DateTime) (now_mono : MonotonicInstant)
    (plan : SessionPlan) (entry : Entry)
    (happ : (e.request_launch store entry_id fresh now now_mono).1 = .approved plan)
    (hfound : e.policy.get_entry entry_id = some entry) :
    (∀ x d,
      (handleLaunch e store entry_id fresh (.err msg) now now_mono).2.1.get_usage x d =
        store.get_usage x d) ∧
    (entry.limits.cooldown = none → ∀ x,
      (handleLaunch e store entry_id fresh
        (.err msg) now now_mono).2.1.get_cooldown_until x =
        store.get_cooldown_until x) ∧
    (∀ c, entry.limits.cooldown = some c →
      (handleLaunch e store entry_id fresh
        (.err msg) now now_mono).2.1.get_cooldown_until entry_id =
        some (now + (c : Int))) := by
  obtain ⟨entry', hfound', _, _, _, hu, hcn, hcs⟩ := handleLaunch_err_components e
    store entry_id fresh msg now now_mono plan happ
  rw [hfound] at hfound'
  cases hfound'
  exact ⟨hu, hcn, hcs⟩

/-- Witness for the amended C7 at a concrete failed launch of the `cool`
entry. -/
theorem C7_launch_failed_bookkeeping_witness :
    (handleLaunch coolEngine emptyStore "cool" "sid-w7"
      (.err "x") 1000 5).2.1.get_usage "cool" 0 = emptyStore.get_usage "cool" 0 ∧
    (handleLaunch coolEngine emptyStore "cool" "sid-w7"
      (.err "x") 1000 5).2.1.get_cooldown_until "cool" =
      some (1000 + (Duration.fromSecs 300 : Int)) :=
  ⟨(C7_launch_failed_bookkeeping coolEngine emptyStore "cool" "sid-w7" "x" 1000 5
      coolPlanW coolEntry (by decide) (by decide)).1 "cool" 0,
   (C7_launch_failed_bookkeeping coolEngine emptyStore "cool" "sid-w7" "x" 1000 5
      coolPlanW coolEntry (by decide) (by decide)).2.2 (Duration.fromSecs 300)
      (by decide)⟩

/-! ## C2 — no warning at or past the maximum duration -/

/-- Claim C2: for a session with finite maximum duration `M`, every threshold
in the computed warning schedule is strictly below `M`, every `Warning` event
a tick emits carries a threshold strictly below `M`, and every `WarningIssued`
audit record a tick appends carries a threshold strictly below `M`. -/
theorem C2_warnings_below_max (e : CoreEngine) (store : StoreState)
    (sess : ActiveSession) (M : Duration) (now_mono : MonotonicInstant)
    (hs : e.current_session = some sess) (hM : sess.plan.max_duration = some M) :
    (∀ tw ∈ sess.plan.warning_times, Duration.fromSecs tw.1 < M) ∧
    (∀ sid t r sev msg,
      CoreEvent.warning sid t r sev msg ∈ (e.tick store now_mono).2.2 →
      Duration.fromSecs t < M) ∧
    (∃ newRecs, (e.tick store now_mono).2.1.auditLog = store.auditLog ++ newRecs ∧
      ∀ rec ∈ newRecs, ∀ sid t, rec.event = .warningIssued sid t →
        Duration.fromSecs t < M) := by
  have hsched := warning_times_lt sess.plan M hM
  have hofx : ∀ x ∈ (sess.pending_warnings now_mono).map Prod.fst,
      Duration.fromSecs x < M := by
    intro x hx
    have := pending_fst_mem_warning_times sess now_mono x hx
    simp only [List.mem_map] at this
    obtain ⟨tw, htw, rfl⟩ := this
    exact hsched tw htw
  obtain ⟨hses, hst, hev⟩ := tick_components e store now_mono sess hs
  refine ⟨hsched, ?_, ?_⟩
  · intro sid t r sev msg hmem
    have hwl : CoreEvent.warning sid t r sev msg ∈
        (warnLoop (sess.pending_warnings now_mono) sess store).2.2 := by
      rcases hev with h | h
      · rwa [h] at hmem
      · rw [h] at hmem
        rcases List.mem_append.mp hmem with hmem | hmem
        · exact hmem
        · simp at hmem
    exact hofx t (warnLoop_warning_mem _ _ _ _ _ _ _ _ hwl)
  · obtain ⟨recs, hrecs, hprop⟩ := warnLoop_auditLog (sess.pending_warnings now_mono)
      sess store
    refine ⟨recs, by rw [hst]; exact hrecs, ?_⟩
    intro rec hrec sid t hevr
    exact hofx t (hprop rec hrec sid t hevr)

/-- Witness for C2: in the 10 s session with a 5 s and a 2 s threshold, the
scheduled 5 s threshold sits strictly below the 10 s maximum duration. -/
theorem C2_warnings_below_max_witness :
    Duration.fromSecs 5 < Duration.fromSecs 10 :=
  (C2_warnings_below_max twoWarnEngine emptyStore (ActiveSession.new twoWarnPlan 0 0)
    (Duration.fromSecs 10) (Duration.fromSecs 6) rfl (by decide)).1
    (5, Duration.fromSecs 5) (by decide)

/-- The `warnings_issued` list after a mark is the old one, possibly with the
threshold appended. -/
theorem mark_warning_issued_warnings (s : ActiveSession) (t : Nat) :
    (s.mark_warning_issued t).warnings_issued = s.warnings_issued ∨
    (s.mark_warning_issued t).warnings_issued = s.warnings_issued ++ [t] := by
  unfold ActiveSession.mark_warning_issued
  split
  · dsimp only
    split
    · exact Or.inl rfl
    · exact Or.inl rfl
  · dsimp only
    split
    · exact Or.inr rfl
    · exact Or.inr rfl

/-- A marked threshold is recorded as issued. -/
theorem mark_warning_issued_mem_self (s : ActiveSession) (t : Nat) :
    t ∈ (s.mark_warning_issued t).warnings_issued := by
  unfold ActiveSession.mark_warning_issued
  split
  next hc =>
    dsimp only
    split <;> exact List.elem_iff.mp hc
  next hc =>
    dsimp only
    split <;> simp

/-- Marking preserves previously issued thresholds. -/
theorem mark_warning_issued_mem_mono (s : ActiveSession) (t x : Nat)
    (h : x ∈ s.warnings_issued) : x ∈ (s.mark_warning_issued t).warnings_issued := by
  rcases mark_warning_issued_warnings s t with heq | heq <;> rw [heq]
  · exact h
  · exact List.mem_append_left _ h

/-- The warning loop preserves previously issued thresholds. -/
theorem warnLoop_issued_mono (l : List (Nat × Duration)) :
    ∀ (s : ActiveSession) (st : StoreState) (x : Nat), x ∈ s.warnings_issued →
      x ∈ (warnLoop l s st).1.warnings_issued := by
  induction l with
  | nil =>
    intro s st x h
    simpa [warnLoop] using h
  | cons hd tl ih =>
    intro s st x h
    obtain ⟨t0, r0⟩ := hd
    simp only [warnLoop]
    exact ih _ _ x (mark_warning_issued_mem_mono s t0 x h)

/-- Every threshold worked through the warning loop ends up issued. -/
theorem warnLoop_issued_of_mem (l : List (Nat × Duration)) :
    ∀ (s : ActiveSession) (st : StoreState) (x : Nat), x ∈ l.map Prod.fst →
      x ∈ (warnLoop l s st).1.warnings_issued := by
  induction l with
  | nil => simp
  | cons hd tl ih =>
    intro s st x hx
    obtain ⟨t0, r0⟩ := hd
    simp only [List.map_cons, List.mem_cons] at hx
    simp only [warnLoop]
    rcases hx with rfl | hx
    · exact warnLoop_issued_mono tl _ _ x (mark_warning_issued_mem_self s x)
    · exact ih _ _ x hx

/-- The warning loop emits exactly one `Warning` event per pending pair. -/
theorem warnLoop_countWarn (T : Nat) (l : List (Nat × Duration)) :
    ∀ (s : ActiveSession) (st : StoreState),
      countWarn T (warnLoop l s st).2.2 =
        (l.map Prod.fst).countP (fun x => x == T) := by
  induction l with
  | nil => intro s st; simp [warnLoop, countWarn]
  | cons hd tl ih =>
    intro s st
    obtain ⟨t0, r0⟩ := hd
    simp only [warnLoop, countWarn, List.map_cons] at ih ⊢
    simp [List.countP_cons, ih]

/-- The warning loop appends exactly one `WarningIssued` audit record per
pending pair. -/
theorem warnLoop_countAuditWarn (T : Nat) (l : List (Nat × Duration)) :
    ∀ (s : ActiveSession) (st : StoreState),
      countAuditWarn T (warnLoop l s st).2.1.auditLog =
        countAuditWarn T st.auditLog + (l.map Prod.fst).countP (fun x => x == T) := by
  induction l with
  | nil => intro s st; simp [warnLoop]
  | cons hd tl ih =>
    intro s st
    obtain ⟨t0, r0⟩ := hd
    simp only [warnLoop, List.map_cons]
    rw [ih]
    unfold countAuditWarn StoreState.append_audit AuditEvent.new
    simp [List.countP_append, List.countP_cons]
    omega

/-- Pending thresholds are a sublist of the schedule's thresholds. -/
theorem pending_fst_sublist_wt (s : ActiveSession) (nm : MonotonicInstant) :
    List.Sublist ((s.pending_warnings nm).map Prod.fst)
      ((s.plan.warning_times).map Prod.fst) := by
  unfold ActiveSession.pending_warnings
  cases htr : s.time_remaining nm with
  | none => simp
  | some remaining =>
    rw [List.map_map]
    have hcomp : (Prod.fst ∘ fun tw : Nat × Duration => (tw.1, remaining)) = Prod.fst :=
      rfl
    rw [hcomp]
    exact List.Sublist.map _ (List.filter_sublist _)

/-- Schedule thresholds are a sublist of the plan's configured thresholds. -/
theorem warning_times_fst_sublist (p : SessionPlan) :
    List.Sublist ((p.warning_times).map Prod.fst)
      (p.warnings.map (fun w => w.seconds_before)) := by
  unfold SessionPlan.warning_times
  cases hM : p.max_duration with
  | none => simp
  | some M =>
    rw [List.map_map]
    have hcomp : (Prod.fst ∘ fun w : WarningThreshold =>
        (w.seconds_before, M - Duration.fromSecs w.seconds_before)) =
        fun w => w.seconds_before := rfl
    rw [hcomp]
    exact List.Sublist.map _ (List.filter_sublist _)

/-- A duplicate-free list holds any value at most once. -/
theorem countP_beq_le_one_of_nodup (T : Nat) (l : List Nat) (h : l.Nodup) :
    l.countP (fun x => x == T) ≤ 1 := by
  induction l with
  | nil => simp
  | cons a l ih =>
    rw [List.countP_cons]
    rcases List.nodup_cons.mp h with ⟨ha, hl⟩
    by_cases hA : a = T
    · subst hA
      have hz : l.countP (fun x => x == a) = 0 := by
        rw [List.countP_eq_zero]
        intro x hx
        simp only [beq_iff_eq]
        intro hxa
        exact ha (hxa ▸ hx)
      simp [hz]
    · simpa [hA] using ih hl

theorem countWarn_append (T : Nat) (a b : List CoreEvent) :
    countWarn T (a ++ b) = countWarn T a + countWarn T b := by
  simp [countWarn]

/-- Session, plan, issued-set and event/audit counts across one tick with an
active session. -/
theorem tick_warn_facts (T : Nat) (e : CoreEngine) (store : StoreState)
    (nm : MonotonicInstant) (sess : ActiveSession)
    (hs : e.current_session = some sess) :
    ∃ sess', (e.tick store nm).1.current_session = some sess' ∧
      sess'.plan = sess.plan ∧
      (∀ x, x ∈ sess.warnings_issued → x ∈ sess'.warnings_issued) ∧
      (∀ x, x ∈ (sess.pending_warnings nm).map Prod.fst →
        x ∈ sess'.warnings_issued) ∧
      countWarn T (e.tick store nm).2.2 =
        ((sess.pending_warnings nm).map Prod.fst).countP (fun x => x == T) ∧
      countAuditWarn T (e.tick store nm).2.1.auditLog =
        countAuditWarn T store.auditLog +
          ((sess.pending_warnings nm).map Prod.fst).countP (fun x => x == T) := by
  obtain ⟨hses, hst, hev⟩ := tick_components e store nm sess hs
  have hcw : countWarn T (e.tick store nm).2.2 =
      countWarn T (warnLoop (sess.pending_warnings nm) sess store).2.2 := by
    rcases hev with h | h <;> rw [h]
    rw [countWarn_append]
    simp [countWarn]
  have hca : countAuditWarn T (e.tick store nm).2.1.auditLog =
      countAuditWarn T (warnLoop (sess.pending_warnings nm) sess store).2.1.auditLog := by
    rw [hst]
  rcases hses with h | h
  · refine ⟨_, h, (warnLoop_fields _ _ _).1, ?_, ?_, ?_, ?_⟩
    · exact fun x hx => warnLoop_issued_mono _ _ _ x hx
    · exact fun x hx => warnLoop_issued_of_mem _ _ _ x hx
    · rw [hcw]; exact warnLoop_countWarn T _ _ _
    · rw [hca]; exact warnLoop_countAuditWarn T _ _ _
  · refine ⟨_, h, (warnLoop_fields _ _ _).1, ?_, ?_, ?_, ?_⟩
    · exact fun x hx => warnLoop_issued_mono _ _ _ x hx
    · exact fun x hx => warnLoop_issued_of_mem _ _ _ x hx
    · rw [hcw]; exact warnLoop_countWarn T _ _ _
    · rw [hca]; exact warnLoop_countAuditWarn T _ _ _

/-- An engine whose session has already issued threshold `T` never emits a
`T` warning or audit record again, over any sequence of ticks. -/
theorem tickRun_emitsNone (T : Nat) (times : List MonotonicInstant) :
    ∀ (e : CoreEngine) (store : StoreState),
      (∀ sess, e.current_session = some sess → T ∈ sess.warnings_issued) →
      countWarn T (tickRun e store times).2.2 = 0 ∧
      countAuditWarn T (tickRun e store times).2.1.auditLog =
        countAuditWarn T store.auditLog := by
  induction times with
  | nil =>
    intro e store _
    simp [tickRun, countWarn]
  | cons nm rest ih =>
    intro e store h
    simp only [tickRun]
    cases hs : e.current_session with
    | none =>
      have ht : e.tick store nm = (e, store, []) := by
        unfold CoreEngine.tick
        simp [hs]
      rw [ht]
      obtain ⟨h1, h2⟩ := ih e store h
      constructor
      · simpa [countWarn] using h1
      · simpa using h2
    | some sess =>
      obtain ⟨sess', hses, hplan, hmono, hpend, hcw, hca⟩ :=
        tick_warn_facts T e store nm sess hs
      have hTiss := h sess hs
      have hc0 : ((sess.pending_warnings nm).map Prod.fst).countP
          (fun x => x == T) = 0 := by
        rw [List.countP_eq_zero]
        intro x hx
        simp only [beq_iff_eq]
        intro hxT
        exact (pending_fst_not_mem_of_issued sess T nm hTiss) (hxT ▸ hx)
      have h' : ∀ s2, (e.tick store nm).1.current_session = some s2 →
          T ∈ s2.warnings_issued := by
        intro s2 hs2
        rw [hses] at hs2
        cases hs2
        exact hmono T hTiss
      obtain ⟨hr1, hr2⟩ := ih (e.tick store nm).1 (e.tick store nm).2.1 h'
      rw [hc0] at hcw hca
      constructor
      · rw [countWarn_append, hr1, hcw]
      · rw [hr2, hca]
        omega

/-! ## C3 — at most one warning per threshold -/

/-- Claim C3 as stated is false: with a plan repeating the 5 s threshold, a
single tick past the trigger emits two `Warning` events and appends two
`WarningIssued` audit records with `threshold_seconds = 5` in the same
session. -/
theorem C3_duplicate_threshold_counterexample :
    countWarn 5 (dupEngine.tick emptyStore (Duration.fromSecs 6)).2.2 = 2 ∧
    countAuditWarn 5
      (dupEngine.tick emptyStore (Duration.fromSecs 6)).2.1.auditLog = 2 := by
  decide

/-- Claim C3, amended: provided the plan's warning thresholds are pairwise
distinct `seconds_before` values (duplicates in the configured list are the
one way to defeat it), any sequence of ticks emits at most one `Warning`
event with a given threshold `T`, and appends at most one `WarningIssued`
audit record with `T`, over the session's lifetime. -/
theorem C3_warning_at_most_once (e : CoreEngine) (store : StoreState) (T : Nat)
    (times : List MonotonicInstant)
    (hN : ∀ sess, e.current_session = some sess →
      (sess.plan.warnings.map (fun w => w.seconds_before)).Nodup) :
    countWarn T (tickRun e store times).2.2 ≤ 1 ∧
    countAuditWarn T (tickRun e store times).2.1.auditLog ≤
      countAuditWarn T store.auditLog + 1 := by
  induction times generalizing e store with
  | nil =>
    constructor
    · simp [tickRun, countWarn]
    · simp [tickRun]
  | cons nm rest ih =>
    simp only [tickRun]
    cases hs : e.current_session with
    | none =>
      have ht : e.tick store nm = (e, store, []) := by
        unfold CoreEngine.tick
        simp [hs]
      rw [ht]
      obtain ⟨h1, h2⟩ := ih e store hN
      constructor
      · simpa [countWarn] using h1
      · simpa using h2
    | some sess =>
      obtain ⟨sess', hses, hplan, hmono, hpend, hcw, hca⟩ :=
        tick_warn_facts T e store nm sess hs
      have hN' : ∀ s2, (e.tick store nm).1.current_session = some s2 →
          (s2.plan.warnings.map (fun w => w.seconds_before)).Nodup := by
        intro s2 hs2
        rw [hses] at hs2
        cases hs2
        rw [hplan]
        exact hN sess hs
      have hle : ((sess.pending_warnings nm).map Prod.fst).countP
          (fun x => x == T) ≤ 1 := by
        calc ((sess.pending_warnings nm).map Prod.fst).countP (fun x => x == T)
            ≤ ((sess.plan.warning_times).map Prod.fst).countP (fun x => x == T) :=
              List.Sublist.countP_le _ (pending_fst_sublist_wt sess nm)
          _ ≤ (sess.plan.warnings.map (fun w => w.seconds_before)).countP
                (fun x => x == T) :=
              List.Sublist.countP_le _ (warning_times_fst_sublist sess.plan)
          _ ≤ 1 := countP_beq_le_one_of_nodup T _ (hN sess hs)
      by_cases hTpend : T ∈ (sess.pending_warnings nm).map Prod.fst
      · have hTiss : T ∈ sess'.warnings_issued := hpend T hTpend
        have h' : ∀ s2, (e.tick store nm).1.current_session = some s2 →
            T ∈ s2.warnings_issued := by
          intro s2 hs2
          rw [hses] at hs2
          cases hs2
          exact hTiss
        obtain ⟨hr1, hr2⟩ := tickRun_emitsNone T rest (e.tick store nm).1
          (e.tick store nm).2.1 h'
        rw [hca] at hr2
        constructor
        · rw [countWarn_append, hr1, hcw]
          omega
        · rw [hr2]
          omega
      · have hc0 : ((sess.pending_warnings nm).map Prod.fst).countP
            (fun x => x == T) = 0 := by
          rw [List.countP_eq_zero]
          intro x hx
          simp only [beq_iff_eq]
          intro hxT
          exact hTpend (hxT ▸ hx)
        obtain ⟨hr1, hr2⟩ := ih (e.tick store nm).1 (e.tick store nm).2.1 hN'
        rw [hca, hc0] at hr2
        constructor
        · rw [countWarn_append, hcw, hc0]
          omega
        · omega

/-- Witness for the amended C3: a distinct-threshold session ticked twice
past the 5 s trigger emits at most one 5 s warning. -/
theorem C3_warning_at_most_once_witness :
    countWarn 5 (tickRun twoWarnEngine emptyStore
      [Duration.fromSecs 6, Duration.fromSecs 7]).2.2 ≤ 1 ∧
    countAuditWarn 5 (tickRun twoWarnEngine emptyStore
      [Duration.fromSecs 6, Duration.fromSecs 7]).2.1.auditLog ≤
      countAuditWarn 5 emptyStore.auditLog + 1 :=
  C3_warning_at_most_once twoWarnEngine emptyStore 5
    [Duration.fromSecs 6, Duration.fromSecs 7]
    (fun sess h => by
      have h' : some (ActiveSession.new twoWarnPlan 0 0) = some sess := h
      injection h' with h2
      rw [← h2]
      decide)

/-! ## C4 — deadline fields None iff unlimited -/

/-- The invariant of claim C4: each deadline field is `None` exactly when the
plan's maximum duration is unlimited. -/
def DeadlineInv (s : ActiveSession) : Prop :=
  (s.deadline = none ↔ s.plan.max_duration = none) ∧
  (s.deadline_mono = none ↔ s.plan.max_duration = none)

instance (s : ActiveSession) : Decidable (DeadlineInv s) := by
  unfold DeadlineInv; infer_instance

/-- Claim C4: `ActiveSession::new` establishes the None-iff-unlimited
correspondence of `deadline` and `deadline_mono` (with
`deadline = started_at + M` and `deadline_mono = started_at_mono + M` for
finite `M`), and every session operation — `attach_handle`, the warning and
expiry marks, `extend_current` and `tick` — preserves it. -/
theorem C4_deadline_none_iff_unlimited :
    (∀ (plan : SessionPlan) (now : DateTime) (nm : MonotonicInstant),
      DeadlineInv (ActiveSession.new plan now nm) ∧
      ∀ M, plan.max_duration = some M →
        (ActiveSession.new plan now nm).deadline = some (now + (M : Int)) ∧
        (ActiveSession.new plan now nm).deadline_mono = some (nm + M)) ∧
    (∀ s handle, DeadlineInv s → DeadlineInv (s.attach_handle handle)) ∧
    (∀ s t, DeadlineInv s → DeadlineInv (s.mark_warning_issued t)) ∧
    (∀ s, DeadlineInv s → DeadlineInv s.mark_expiring) ∧
    (∀ s, DeadlineInv s → DeadlineInv s.mark_ended) ∧
    (∀ e store by_ nm now sess',
      (∀ sess, CoreEngine.current_session e = some sess → DeadlineInv sess) →
      (CoreEngine.extend_current e store by_ nm now).1.current_session = some sess' →
      DeadlineInv sess') ∧
    (∀ e store nm sess',
      (∀ sess, CoreEngine.current_session e = some sess → DeadlineInv sess) →
      (CoreEngine.tick e store nm).1.current_session = some sess' →
      DeadlineInv sess') := by
  refine ⟨?_, ?_, ?_, ?_, ?_, ?_, ?_⟩
  · intro plan now nm
    constructor
    · cases hM : plan.max_duration with
      | none => simp [DeadlineInv, ActiveSession.new, hM]
      | some M => simp [DeadlineInv, ActiveSession.new, hM]
    · intro M hM
      simp [ActiveSession.new, hM]
  · intro s handle h
    exact h
  · intro s t h
    have hf := mark_warning_issued_fields s t
    unfold DeadlineInv at h ⊢
    rw [hf.1, hf.2.1, hf.2.2.1]
    exact h
  · intro s h
    exact h
  · intro s h
    exact h
  · intro e store by_ nm now sess' hinv hres
    cases hs : e.current_session with
    | none =>
      unfold CoreEngine.extend_current at hres
      simp [hs] at hres
    | some sess =>
      have hsess := hinv sess hs
      unfold CoreEngine.extend_current at hres
      simp only [hs] at hres
      cases hdm : sess.deadline_mono with
      | none =>
        cases hd : sess.deadline with
        | none =>
          simp only [hdm, hd, hs] at hres
          cases hres
          exact hsess
        | some d =>
          simp only [hdm, hd, hs] at hres
          cases hres
          exact hsess
      | some dm =>
        cases hd : sess.deadline with
        | none =>
          simp only [hdm, hd, hs] at hres
          cases hres
          exact hsess
        | some d =>
          simp only [hdm, hd, Option.some.injEq] at hres
          have hmax : ¬ sess.plan.max_duration = none := by
            intro hmx
            have h2 := hsess.2.mpr hmx
            rw [hdm] at h2
            exact Option.noConfusion h2
          rw [← hres]
          exact ⟨iff_of_false (by simp) hmax, iff_of_false (by simp) hmax⟩
  · intro e store nm sess' hinv hres
    cases hs : e.current_session with
    | none =>
      unfold CoreEngine.tick at hres
      simp [hs] at hres
    | some sess =>
      have hsess := hinv sess hs
      have hw := warnLoop_fields (sess.pending_warnings nm) sess store
      have hinv' : DeadlineInv (warnLoop (sess.pending_warnings nm) sess store).1 := by
        unfold DeadlineInv at hsess ⊢
        rw [hw.1, hw.2.1, hw.2.2.1]
        exact hsess
      rcases (tick_components e store nm sess hs).1 with hc | hc
      · rw [hres] at hc
        cases hc
        exact hinv'
      · rw [hres] at hc
        cases hc
        exact hinv'

/-- Witness for C4 at concrete sessions: a finite plan, the same session
after a warning mark, and an unlimited plan. -/
theorem C4_deadline_none_iff_unlimited_witness :
    DeadlineInv (ActiveSession.new twoWarnPlan 0 0) ∧
    DeadlineInv ((ActiveSession.new twoWarnPlan 0 0).mark_warning_issued 5) ∧
    DeadlineInv (ActiveSession.new unlimPlan 0 0) :=
  ⟨(C4_deadline_none_iff_unlimited.1 twoWarnPlan 0 0).1,
   C4_deadline_none_iff_unlimited.2.2.1 (ActiveSession.new twoWarnPlan 0 0) 5 (by decide),
   (C4_deadline_none_iff_unlimited.1 unlimPlan 0 0).1⟩

/-! ## C8 — zero raw limits -/

/-- Claim C8 as stated is false: a raw `cooldown` of zero seconds converts to
`Some(0 s)`, not to an unlimited `None`; and a raw `max_run` of zero converts
to `None` while omitting `max_run` falls back to `default_max_run`, so zero
is not identical to omission either. -/
theorem C8_zero_limits_counterexample :
    (convert_limits ⟨none, none, some 0⟩ none).cooldown = some (Duration.fromSecs 0) ∧
    (convert_limits ⟨none, none, none⟩ none).cooldown = none ∧
    (convert_limits ⟨some 0, none, none⟩ (some (Duration.fromSecs 3600))).max_run = none ∧
    (convert_limits ⟨none, none, none⟩ (some (Duration.fromSecs 3600))).max_run =
      some (Duration.fromSecs 3600) := by
  decide

/-- Claim C8, amended: a zero `max_run` or `daily_quota` in the raw
configuration converts to unlimited (`None`); for `daily_quota` this is
identical to omitting the field, while an omitted `max_run` falls back to the
default maximum run duration; a zero `cooldown` converts to a zero-second
cooldown (`Some 0`), not to `None`. -/
theorem C8_zero_limits_amended (mr dq cd : Option Nat) (dmr : Option Duration) :
    (convert_limits ⟨some 0, dq, cd⟩ dmr).max_run = none ∧
    (convert_limits ⟨mr, some 0, cd⟩ dmr).daily_quota = none ∧
    (convert_limits ⟨mr, none, cd⟩ dmr).daily_quota = none ∧
    (convert_limits ⟨none, dq, cd⟩ dmr).max_run = dmr ∧
    (convert_limits ⟨mr, dq, some 0⟩ dmr).cooldown = some (Duration.fromSecs 0) ∧
    (convert_limits ⟨mr, dq, none⟩ dmr).cooldown = none := by
  simp [convert_limits, seconds_to_duration_or_unlimited]

/-! ## C9 — append_audit return value -/

/-- Claim C9 as stated is false: `append_audit` returns `Ok(())`, a value
that does not carry the assigned id. Two stores whose next autoincrement ids
differ produce identical return values while assigning different ids to the
inserted row. -/
theorem C9_append_audit_counterexample :
    (storeIdOne.append_audit fixtureAudit).2 = (storeIdTwo.append_audit fixtureAudit).2 ∧
    (storeIdOne.append_audit fixtureAudit).1.auditLog.getLast?.map AuditEvent.id ≠
      (storeIdTwo.append_audit fixtureAudit).1.auditLog.getLast?.map AuditEvent.id := by
  decide

/-- Claim C9, amended: `append_audit` assigns the store's next autoincrement
id to the newly inserted audit-log row (recording it only in the consumed
event value) and increments the counter, but the call returns unit, not the
assigned id. -/
theorem C9_append_audit_amended (s : StoreState) (event : AuditEvent) :
    (s.append_audit event).2 = () ∧
    (s.append_audit event).1.auditLog.getLast? = some { event with id := s.nextAuditId } ∧
    (s.append_audit event).1.nextAuditId = s.nextAuditId + 1 := by
  refine ⟨rfl, ?_, rfl⟩
  simp [StoreState.append_audit]

/-! ## C10 — unknown entry id -/

/-- Claim C10: a launch request for an entry id absent from the policy is
denied with exactly the single reason `Disabled { reason: "Entry not found" }`
and leaves the store (in particular the audit log) untouched. -/
theorem C10_unknown_entry_denied (e : CoreEngine) (store : StoreState)
    (entry_id fresh : String) (now : DateTime) (now_mono : MonotonicInstant)
    (h : e.policy.get_entry entry_id = none) :
    e.request_launch store entry_id fresh now now_mono =
      (.denied [.disabled (some "Entry not found")], store) := by
  simp [CoreEngine.request_launch, h]

/-- Witness for C10 at a concrete engine and id. -/
theorem C10_unknown_entry_denied_witness :
    gameEngine.policy.get_entry "nope" = none ∧
    gameEngine.request_launch emptyStore "nope" "sid" 0 0 =
      (.denied [.disabled (some "Entry not found")], emptyStore) :=
  ⟨by decide, C10_unknown_entry_denied gameEngine emptyStore "nope" "sid" 0 0 (by decide)⟩

end Shepherd
